import Mathlib

/-!
# Verification of the `go-paginate` pagination library

Shallow embedding of `paginate.go` (package `paginate`): the parameter
resolver `GetPaginationParamsWithDefault`, the page computer `GetPage`,
its mapped variant `GetPageMapped`, and the link-building helpers.

Modelling conventions:
* Go `int` is modelled as `Int` (the values exercised stay far below 2^63).
* `int(math.Ceil(float64(count) / float64(perPage)))` is modelled exactly as
  the integer ceiling `goCeilDiv` (exact for the magnitudes a pagination
  call can meaningfully see, i.e. below 2^53); the Go expression with
  `perPage = 0` is a float division by zero, which the total model maps to
  `goCeilDiv count 0 = 0` and which the guarded variant `lastPageChecked`
  flags as `none`.
* `int(math.Min(float64(a), float64(b)))` is modelled as `min a b`.
* The query object (interface `PQ`: `Offset`, `Limit`, `Count`, `All`) is
  modelled as an explicit state `Query` that records its configured results
  and a log of the calls made to it; Go's `(value, error)` returns become
  `Except String`.
* The fallible `gc.ShouldBind` call of the resolver is modelled as an
  `Option PaginatedParams` argument (`none` = binding error).
-/

namespace Paginate

/-- `PaginatedParams` is a struct that contains the page and per_page
parameters (fields `Page`, `PerPage` of Go type `int`). -/
structure PaginatedParams where
  Page : Int
  PerPage : Int
deriving Repr, DecidableEq

/-- Method `(pp *PaginatedParams) GetPage`: the current page number,
defaulted to 1. -/
def PaginatedParams.GetPage (pp : PaginatedParams) : Int :=
  if pp.Page < 1 then 1 else pp.Page

/-- Method `(pp *PaginatedParams) GetPerPage`: the number of items per
page, defaulted to 10. -/
def PaginatedParams.GetPerPage (pp : PaginatedParams) : Int :=
  if pp.PerPage < 1 then 10 else pp.PerPage

/-- `GetPaginationParamsWithDefault`: resolve the raw bound parameters
(`none` models a `ShouldBind` failure) against the given defaults. -/
def GetPaginationParamsWithDefault (bindResult : Option PaginatedParams)
    (defaultPage defaultPerPage : Int) : PaginatedParams :=
  let page : PaginatedParams :=
    match bindResult with
    | none => { Page := defaultPage, PerPage := defaultPerPage }
    | some p => p
  let page1 : PaginatedParams :=
    if page.Page < 1 then { page with Page := defaultPage } else page
  if page1.PerPage < 1 then { page1 with PerPage := defaultPerPage } else page1

/-- `GetPaginationParams`: the convenience entry point with fixed defaults
page `1` and `10` items per page. -/
def GetPaginationParams (bindResult : Option PaginatedParams) : PaginatedParams :=
  GetPaginationParamsWithDefault bindResult 1 10

/-- Modelled from the spec: the inbound HTTP request as the Link Builder
(the external `eidng8/go-url` package) sees it — an absolute base URL
without query string, plus the request's query parameters. -/
structure Request where
  base : String
  query : List (String × String)
deriving Repr, DecidableEq

/-- Modelled from the spec: overwrite one query parameter (the Link Builder
overwrites `page`/`per_page`, all other query parameters preserved). -/
def setQueryParam (q : List (String × String)) (k v : String) :
    List (String × String) :=
  (q.filter fun p => decide (p.1 ≠ k)) ++ [(k, v)]

/-- Render a query-parameter list as a query string. -/
def renderQuery : List (String × String) → String
  | [] => ""
  | [(k, v)] => k ++ "=" ++ v
  | (k, v) :: rest => k ++ "=" ++ v ++ "&" ++ renderQuery rest

/-- Modelled from the spec: `eu.RequestBaseUrl` of the external
`eidng8/go-url` package — the request's base URL with no query string. -/
def RequestBaseUrl (req : Request) : String :=
  req.base

/-- Modelled from the spec: `eu.RequestUrlWithQueryParams` of the external
`eidng8/go-url` package — a URL identical to the original request's URL
but with the given query parameters overwritten. -/
def RequestUrlWithQueryParams (req : Request) (ps : List (String × String)) :
    String :=
  req.base ++ "?" ++
    renderQuery (ps.foldl (fun acc kv => setQueryParam acc kv.1 kv.2) req.query)

/-- `PageQueryParams`: the `page` and `per_page` query parameters. -/
def PageQueryParams (page perPage : Int) : List (String × String) :=
  [("page", toString page), ("per_page", toString perPage)]

/-- `UrlWithPage`: a URL with the `page` and `per_page` query parameters
set. -/
def UrlWithPage (request : Request) (page perPage : Int) : String :=
  RequestUrlWithQueryParams request (PageQueryParams page perPage)

/-- `PaginatedList` is a struct that contains the paginated list of items. -/
structure PaginatedList (T : Type) where
  Total : Int
  PerPage : Int
  CurrentPage : Int
  LastPage : Int
  FirstPageUrl : String
  LastPageUrl : String
  NextPageUrl : String
  PrevPageUrl : String
  Path : String
  From : Int
  To : Int
  Data : List T
deriving Repr, DecidableEq

/-- The query abstraction `PQ` (interface with `Offset`, `Limit`, `Count`,
`All`), modelled as explicit state: the configured results of `Count` and
`All`, plus a log of every call made to the query object. -/
structure Query (I : Type) where
  countResult : Except String Int
  allResult : Except String (List I)
  countCalls : Nat
  allCalls : Nat
  offsets : List Int
  limits : List Int
deriving Repr

/-- `query.Count(ctx)`: return the configured count and log the call. -/
def Query.count {I : Type} (q : Query I) : Except String Int × Query I :=
  (q.countResult, { q with countCalls := q.countCalls + 1 })

/-- `query.Offset(n)`: log the offset applied to the query. -/
def Query.offset {I : Type} (q : Query I) (n : Int) : Query I :=
  { q with offsets := q.offsets ++ [n] }

/-- `query.Limit(n)`: log the limit applied to the query. -/
def Query.limit {I : Type} (q : Query I) (n : Int) : Query I :=
  { q with limits := q.limits ++ [n] }

/-- `query.All(ctx)`: return the configured rows and log the call. -/
def Query.all {I : Type} (q : Query I) : Except String (List I) × Query I :=
  (q.allResult, { q with allCalls := q.allCalls + 1 })

/-- `int(math.Ceil(float64(a) / float64(b)))` for a positive divisor:
the integer ceiling of `a / b` (`Int ` division is Euclidean, so
`-((-a) / b)` is the exact ceiling whenever `b > 0`; at `b = 0` the Go
expression divides by zero in float arithmetic, the model yields `0`). -/
def goCeilDiv (a b : Int) : Int :=
  -((-a) / b)

/-- Guarded variant of the last-page division: `none` is the
division-by-zero branch that the unguarded source expression
`int(math.Ceil(float64(count) / float64(params.PerPage)))` does not have. -/
def lastPageChecked (count perPage : Int) : Option Int :=
  if perPage = 0 then none else some (goCeilDiv count perPage)

/-- `GetPage`: the page computer. Returns a paginated list of items (or the
propagated query error) together with the final query state. -/
def GetPage {I : Type} (req : Request) (query : Query I)
    (params : PaginatedParams) : Except String (PaginatedList I) × Query I :=
  let fi : Int := 1
  let ni : Int := params.Page + 1
  let pi : Int := params.Page - 1
  let q1 := (Query.count query).2
  match (Query.count query).1 with
  | .error e => (.error e, q1)
  | .ok count =>
    if count = 0 then
      (.ok { Total := 0, PerPage := params.PerPage, CurrentPage := 1,
             LastPage := 1,
             FirstPageUrl := UrlWithPage req 1 params.PerPage,
             LastPageUrl := "", NextPageUrl := "", PrevPageUrl := "",
             Path := RequestBaseUrl req, From := 0, To := 0, Data := [] }, q1)
    else
      let fromIdx := pi * params.PerPage + 1
      let toIdx := min (params.Page * params.PerPage) count
      let q2 := Query.limit (Query.offset q1 (pi * params.PerPage)) params.PerPage
      let q3 := (Query.all q2).2
      match (Query.all q2).1 with
      | .error e => (.error e, q3)
      | .ok rows =>
        let li := goCeilDiv count params.PerPage
        let first := UrlWithPage req fi params.PerPage
        let li2 := if li ≤ 1 then 1 else li
        let last := if li ≤ 1 then "" else UrlWithPage req li params.PerPage
        let next := if ni > li2 then "" else UrlWithPage req ni params.PerPage
        let prev := if pi < 1 then "" else UrlWithPage req pi params.PerPage
        (.ok { Total := count, PerPage := params.PerPage,
               CurrentPage := params.Page, LastPage := li2,
               FirstPageUrl := first, LastPageUrl := last,
               NextPageUrl := next, PrevPageUrl := prev,
               Path := RequestBaseUrl req, From := fromIdx, To := toIdx,
               Data := rows }, q3)

/-- The index-passing loop of `GetPageMapped`:
`for i, row := range list.Data { data[i] = mapper(row, i) }`. -/
def mapWithIndex {I V : Type} (mapper : I → Nat → V) : List I → Nat → List V
  | [], _ => []
  | row :: rest, i => mapper row i :: mapWithIndex mapper rest (i + 1)

/-- `GetPageMapped`: run `GetPage`, then map each data row through
`mapper(row, i)`; all other fields are copied unchanged. -/
def GetPageMapped {I V : Type} (req : Request) (query : Query I)
    (params : PaginatedParams) (mapper : I → Nat → V) :
    Except String (PaginatedList V) × Query I :=
  let r := GetPage req query params
  match r.1 with
  | .error e => (.error e, r.2)
  | .ok list =>
    (.ok { Total := list.Total, PerPage := list.PerPage,
           CurrentPage := list.CurrentPage, LastPage := list.LastPage,
           FirstPageUrl := list.FirstPageUrl, LastPageUrl := list.LastPageUrl,
           NextPageUrl := list.NextPageUrl, PrevPageUrl := list.PrevPageUrl,
           Path := list.Path, From := list.From, To := list.To,
           Data := mapWithIndex mapper list.Data 0 }, r.2)

/-! ## Shape lemmas: the four control paths of `GetPage` -/

/-- When the count fails, `GetPage` propagates the error and touches
nothing but the count-call log. -/
theorem getPage_countError {I : Type} (req : Request) (q : Query I)
    (params : PaginatedParams) (e : String) (hc : q.countResult = .error e) :
    GetPage req q params =
      (.error e, { q with countCalls := q.countCalls + 1 }) := by
  simp [GetPage, Query.count, hc]

/-- The empty-collection short circuit of `GetPage`. -/
theorem getPage_zero {I : Type} (req : Request) (q : Query I)
    (params : PaginatedParams) (hc : q.countResult = .ok 0) :
    GetPage req q params =
      (.ok { Total := 0, PerPage := params.PerPage, CurrentPage := 1,
             LastPage := 1,
             FirstPageUrl := UrlWithPage req 1 params.PerPage,
             LastPageUrl := "", NextPageUrl := "", PrevPageUrl := "",
             Path := RequestBaseUrl req, From := 0, To := 0, Data := [] },
       { q with countCalls := q.countCalls + 1 }) := by
  simp [GetPage, Query.count, hc]

/-- When the count succeeds with a nonzero total but the fetch fails,
`GetPage` propagates the fetch error. -/
theorem getPage_fetchError {I : Type} (req : Request) (q : Query I)
    (params : PaginatedParams) (count : Int) (e : String)
    (hc : q.countResult = .ok count) (hnz : count ≠ 0)
    (ha : q.allResult = .error e) :
    GetPage req q params =
      (.error e,
       { q with countCalls := q.countCalls + 1,
                offsets := q.offsets ++ [(params.Page - 1) * params.PerPage],
                limits := q.limits ++ [params.PerPage],
                allCalls := q.allCalls + 1 }) := by
  simp [GetPage, Query.count, Query.offset, Query.limit, Query.all, hc, hnz, ha]

/-- The successful nonzero-total path of `GetPage`, with every field of the
result spelled out. -/
theorem getPage_pos {I : Type} (req : Request) (q : Query I)
    (params : PaginatedParams) (count : Int) (rows : List I)
    (hc : q.countResult = .ok count) (hnz : count ≠ 0)
    (ha : q.allResult = .ok rows) :
    GetPage req q params =
      (.ok { Total := count, PerPage := params.PerPage,
             CurrentPage := params.Page,
             LastPage := if goCeilDiv count params.PerPage ≤ 1 then 1
               else goCeilDiv count params.PerPage,
             FirstPageUrl := UrlWithPage req 1 params.PerPage,
             LastPageUrl := if goCeilDiv count params.PerPage ≤ 1 then ""
               else UrlWithPage req (goCeilDiv count params.PerPage) params.PerPage,
             NextPageUrl :=
               if params.Page + 1 >
                   (if goCeilDiv count params.PerPage ≤ 1 then 1
                    else goCeilDiv count params.PerPage) then ""
               else UrlWithPage req (params.Page + 1) params.PerPage,
             PrevPageUrl := if params.Page - 1 < 1 then ""
               else UrlWithPage req (params.Page - 1) params.PerPage,
             Path := RequestBaseUrl req,
             From := (params.Page - 1) * params.PerPage + 1,
             To := min (params.Page * params.PerPage) count,
             Data := rows },
       { q with countCalls := q.countCalls + 1,
                offsets := q.offsets ++ [(params.Page - 1) * params.PerPage],
                limits := q.limits ++ [params.PerPage],
                allCalls := q.allCalls + 1 }) := by
  simp [GetPage, Query.count, Query.offset, Query.limit, Query.all, hc, hnz, ha]

/-! ## Facts about the link builder and the ceiling division -/

/-- A URL produced by the link builder is never the empty string. -/
theorem urlWithPage_ne_empty (req : Request) (page perPage : Int) :
    UrlWithPage req page perPage ≠ "" := by
  intro h
  have hlen := congrArg String.length h
  have h1 : String.length "?" = 1 := rfl
  simp [UrlWithPage, RequestUrlWithQueryParams, String.length_append, h1] at hlen

/-- For a positive divisor, `goCeilDiv` is the mathematical ceiling of the
rational quotient — i.e. exactly what
`int(math.Ceil(float64(a) / float64(b)))` computes. -/
theorem goCeilDiv_eq_ceil (a b : Int) (hb : 0 < b) :
    goCeilDiv a b = ⌈(a : ℚ) / (b : ℚ)⌉ := by
  have hbn : ((b.toNat : ℤ)) = b := Int.toNat_of_nonneg hb.le
  have hfloor : ⌊((-a : ℤ) : ℚ) / ((b.toNat : ℕ) : ℚ)⌋ = (-a) / (b.toNat : ℤ) :=
    Rat.floor_intCast_div_natCast (-a) b.toNat
  have hbq : ((b.toNat : ℕ) : ℚ) = (b : ℚ) := by
    exact_mod_cast hbn
  have hneg : -((a : ℚ) / (b : ℚ)) = ((-a : ℤ) : ℚ) / ((b.toNat : ℕ) : ℚ) := by
    rw [hbq]
    push_cast
    ring
  have hceil : ⌈(a : ℚ) / (b : ℚ)⌉ = -⌊-((a : ℚ) / (b : ℚ))⌋ := by
    rw [Int.floor_neg]
    omega
  rw [goCeilDiv, hceil, hneg, hfloor, hbn]

/-! ## Concrete fixtures for witnesses and counterexamples -/

/-- A concrete request: `GET http://example.com/items` with no query. -/
def reqA : Request := { base := "http://example.com/items", query := [] }

/-- A concrete integer query with given configured count and rows. -/
def qA (c : Except String Int) (r : Except String (List Int)) : Query Int :=
  { countResult := c, allResult := r, countCalls := 0, allCalls := 0,
    offsets := [], limits := [] }

/-! ## The claims -/

/-- C1, as stated, fails at the out-of-range request `page = 2`,
`per_page = 10` with `total = 5`: the result has `From = 11 > 5 = To`. -/
theorem c1_counterexample :
    (GetPage reqA (qA (.ok 5) (.ok [])) { Page := 2, PerPage := 10 }).1.map
        (fun l => (l.From, l.To)) = .ok (11, 5) ∧ ¬ ((11 : Int) ≤ 5) :=
  ⟨rfl, by decide⟩

/-- C1 (amended): with resolved parameters and `total > 0`, the result has
`From = (page-1)*per_page + 1` and `To = min(page*per_page, total)`;
`From ≤ To` holds whenever the requested window starts inside the
collection, i.e. `(page-1)*per_page < total`. -/
theorem c1_from_to {I : Type} (req : Request) (q : Query I)
    (params : PaginatedParams) (count : Int) (rows : List I)
    (hc : q.countResult = .ok count) (ha : q.allResult = .ok rows)
    (hcount : 0 < count) (hpp : 1 ≤ params.PerPage) :
    ∃ l, (GetPage req q params).1 = .ok l ∧
      l.From = (params.Page - 1) * params.PerPage + 1 ∧
      l.To = min (params.Page * params.PerPage) count ∧
      ((params.Page - 1) * params.PerPage < count → l.From ≤ l.To) := by
  rw [getPage_pos req q params count rows hc (by omega) ha]
  refine ⟨_, rfl, rfl, rfl, ?_⟩
  intro hlt
  have hmul : params.Page * params.PerPage
      = (params.Page - 1) * params.PerPage + params.PerPage := by ring
  have h1 : (params.Page - 1) * params.PerPage + 1
      ≤ params.Page * params.PerPage := by omega
  have h2 : (params.Page - 1) * params.PerPage + 1 ≤ count := by omega
  exact le_min h1 h2

/-- C1 witness: `total = 25`, `per_page = 10`, `page = 2` gives
`From = 11`, `To = 20`, and `From ≤ To`. -/
theorem c1_witness :
    ∃ l, (GetPage reqA (qA (.ok 25) (.ok []))
        { Page := 2, PerPage := 10 }).1 = .ok l ∧
      l.From = (2 - 1) * 10 + 1 ∧ l.To = min (2 * 10) 25 ∧
      (((2 : Int) - 1) * 10 < 25 → l.From ≤ l.To) :=
  c1_from_to reqA (qA (.ok 25) (.ok [])) { Page := 2, PerPage := 10 } 25 []
    rfl rfl (by decide) (by decide)

/-- C2: for `total ≥ 0` and `per_page ≥ 1`, the `LastPage` of a successful
result is `max(1, ceil(total / per_page))`. -/
theorem c2_last_page {I : Type} (req : Request) (q : Query I)
    (params : PaginatedParams) (total : Int) (rows : List I)
    (hc : q.countResult = .ok total) (ha : q.allResult = .ok rows)
    (htot : 0 ≤ total) (hpp : 1 ≤ params.PerPage) :
    ∃ l, (GetPage req q params).1 = .ok l ∧
      l.LastPage = max 1 ⌈(total : ℚ) / (params.PerPage : ℚ)⌉ := by
  rcases eq_or_lt_of_le htot with h0 | hpos
  · rw [getPage_zero req q params (h0.symm ▸ hc)]
    refine ⟨_, rfl, ?_⟩
    rw [← h0]
    simp
  · rw [getPage_pos req q params total rows hc (by omega) ha]
    refine ⟨_, rfl, ?_⟩
    have hceil := goCeilDiv_eq_ceil total params.PerPage (by omega)
    have hq : (0 : ℚ) < (total : ℚ) / (params.PerPage : ℚ) := by
      apply div_pos
      · exact_mod_cast hpos
      · exact_mod_cast (by omega : (0 : Int) < params.PerPage)
    have hge : 1 ≤ goCeilDiv total params.PerPage := by
      rw [hceil]
      have := Int.ceil_pos.mpr hq
      omega
    show (if goCeilDiv total params.PerPage ≤ 1 then (1 : Int)
        else goCeilDiv total params.PerPage) = _
    rw [← hceil]
    split <;> omega

/-- C2 witness: `total = 25`, `per_page = 10` gives `LastPage = 3`. -/
theorem c2_witness :
    ∃ l, (GetPage reqA (qA (.ok 25) (.ok []))
        { Page := 2, PerPage := 10 }).1 = .ok l ∧
      l.LastPage = max 1 ⌈((25 : Int) : ℚ) / ((10 : Int) : ℚ)⌉ :=
  c2_last_page reqA (qA (.ok 25) (.ok [])) { Page := 2, PerPage := 10 } 25 []
    rfl rfl (by decide) (by decide)

/-- C3: when the count returns 0, whatever page was requested, the result
is the empty-collection record: `CurrentPage = 1`, `LastPage = 1`,
`From = 0`, `To = 0`, empty data, empty last/next/prev links, and a
non-empty first-page link pointing at page 1. -/
theorem c3_empty_result {I : Type} (req : Request) (q : Query I)
    (params : PaginatedParams) (hc : q.countResult = .ok 0) :
    ∃ l, (GetPage req q params).1 = .ok l ∧
      l.CurrentPage = 1 ∧ l.LastPage = 1 ∧ l.From = 0 ∧ l.To = 0 ∧
      l.Data = [] ∧ l.LastPageUrl = "" ∧ l.NextPageUrl = "" ∧
      l.PrevPageUrl = "" ∧
      l.FirstPageUrl = UrlWithPage req 1 params.PerPage ∧
      l.FirstPageUrl ≠ "" := by
  rw [getPage_zero req q params hc]
  exact ⟨_, rfl, rfl, rfl, rfl, rfl, rfl, rfl, rfl, rfl, rfl,
    urlWithPage_ne_empty req 1 params.PerPage⟩

/-- C3 witness: `total = 0` with requested `page = 7`, `per_page = 3`. -/
theorem c3_witness :
    ∃ l, (GetPage reqA (qA (.ok 0) (.ok []))
        { Page := 7, PerPage := 3 }).1 = .ok l ∧
      l.CurrentPage = 1 ∧ l.LastPage = 1 ∧ l.From = 0 ∧ l.To = 0 ∧
      l.Data = [] ∧ l.LastPageUrl = "" ∧ l.NextPageUrl = "" ∧
      l.PrevPageUrl = "" ∧
      l.FirstPageUrl = UrlWithPage reqA 1 3 ∧
      l.FirstPageUrl ≠ "" :=
  c3_empty_result reqA (qA (.ok 0) (.ok [])) { Page := 7, PerPage := 3 } rfl

/-- C4, as stated, fails at `page = 5`, `per_page = 10`, `total = 5`: the
result has `CurrentPage = 5` but `LastPage = 1`, so `CurrentPage` is not
clamped to the last valid page. -/
theorem c4_counterexample :
    (GetPage reqA (qA (.ok 5) (.ok [])) { Page := 5, PerPage := 10 }).1.map
        (fun l => (l.CurrentPage, l.LastPage)) = .ok (5, 1) ∧
      ¬ ((5 : Int) ≤ 1) :=
  ⟨rfl, by decide⟩

/-- C4 (amended): for a resolved request (`page ≥ 1`), the returned
`CurrentPage` is always ≥ 1; it is 1 when the collection is empty and
otherwise it is exactly the requested page, NOT clamped to `LastPage`
(so `CurrentPage ≤ LastPage` can fail for out-of-range requests). -/
theorem c4_current_page {I : Type} (req : Request) (q : Query I)
    (params : PaginatedParams) (count : Int) (rows : List I)
    (hc : q.countResult = .ok count) (ha : q.allResult = .ok rows)
    (hcount : 0 ≤ count) (hpage : 1 ≤ params.Page) :
    ∃ l, (GetPage req q params).1 = .ok l ∧ 1 ≤ l.CurrentPage ∧
      (l.Total = 0 → l.CurrentPage = 1) ∧
      (0 < l.Total → l.CurrentPage = params.Page) := by
  rcases eq_or_lt_of_le hcount with h0 | hpos
  · rw [getPage_zero req q params (h0.symm ▸ hc)]
    exact ⟨_, rfl, le_refl 1, fun _ => rfl,
      fun h => absurd (show (0 : Int) < 0 from h) (by decide)⟩
  · rw [getPage_pos req q params count rows hc (by omega) ha]
    exact ⟨_, rfl, hpage,
      fun h => absurd (show count = 0 from h) (by omega), fun _ => rfl⟩

/-- C4 witness: the amended statement at `page = 5`, `total = 5`,
`per_page = 10`. -/
theorem c4_witness :
    ∃ l, (GetPage reqA (qA (.ok 5) (.ok []))
        { Page := 5, PerPage := 10 }).1 = .ok l ∧ 1 ≤ l.CurrentPage ∧
      (l.Total = 0 → l.CurrentPage = 1) ∧
      (0 < l.Total → l.CurrentPage = 5) :=
  c4_current_page reqA (qA (.ok 5) (.ok [])) { Page := 5, PerPage := 10 } 5 []
    rfl rfl (by decide) (by decide)

/-- C5: with positive defaults (the spec requires the configured defaults to
be positive), the resolver always returns `Page ≥ 1` and `PerPage ≥ 1`;
a binding failure yields both defaults, a field `< 1` is replaced by its
default, and already-valid parameters come back unchanged. -/
theorem c5_resolver (bindResult : Option PaginatedParams) (dP dPP : Int)
    (hdP : 1 ≤ dP) (hdPP : 1 ≤ dPP) :
    1 ≤ (GetPaginationParamsWithDefault bindResult dP dPP).Page ∧
    1 ≤ (GetPaginationParamsWithDefault bindResult dP dPP).PerPage ∧
    (bindResult = none →
      GetPaginationParamsWithDefault bindResult dP dPP = ⟨dP, dPP⟩) ∧
    (∀ p, bindResult = some p → p.Page < 1 →
      (GetPaginationParamsWithDefault bindResult dP dPP).Page = dP) ∧
    (∀ p, bindResult = some p → p.PerPage < 1 →
      (GetPaginationParamsWithDefault bindResult dP dPP).PerPage = dPP) ∧
    (∀ p, bindResult = some p → 1 ≤ p.Page → 1 ≤ p.PerPage →
      GetPaginationParamsWithDefault bindResult dP dPP = p) := by
  refine ⟨?_, ?_, ?_, ?_, ?_, ?_⟩
  · cases bindResult with
    | none =>
      simp only [GetPaginationParamsWithDefault]
      split_ifs <;> simp_all
    | some p =>
      simp only [GetPaginationParamsWithDefault]
      split_ifs <;> simp_all
  · cases bindResult with
    | none =>
      simp only [GetPaginationParamsWithDefault]
      split_ifs <;> simp_all
    | some p =>
      simp only [GetPaginationParamsWithDefault]
      split_ifs <;> simp_all
  · intro h
    subst h
    simp [GetPaginationParamsWithDefault,
      show ¬ dP < 1 by omega, show ¬ dPP < 1 by omega]
  · intro p hp h1
    subst hp
    simp only [GetPaginationParamsWithDefault]
    rw [if_pos h1]
    split_ifs <;> rfl
  · intro p hp h2
    subst hp
    simp only [GetPaginationParamsWithDefault]
    split_ifs <;> simp_all
  · intro p hp h1 h2
    subst hp
    simp [GetPaginationParamsWithDefault,
      show ¬ p.Page < 1 by omega, show ¬ p.PerPage < 1 by omega]

/-- C5 witness: resolving `{page: 0, per_page: -5}` against defaults
`(1, 10)` yields positive fields, with each invalid field replaced by its
default. -/
theorem c5_witness :
    1 ≤ (GetPaginationParamsWithDefault (some ⟨0, -5⟩) 1 10).Page ∧
    1 ≤ (GetPaginationParamsWithDefault (some ⟨0, -5⟩) 1 10).PerPage ∧
    ((some ⟨0, -5⟩ : Option PaginatedParams) = none →
      GetPaginationParamsWithDefault (some ⟨0, -5⟩) 1 10 = ⟨1, 10⟩) ∧
    (∀ p, (some ⟨0, -5⟩ : Option PaginatedParams) = some p → p.Page < 1 →
      (GetPaginationParamsWithDefault (some ⟨0, -5⟩) 1 10).Page = 1) ∧
    (∀ p, (some ⟨0, -5⟩ : Option PaginatedParams) = some p → p.PerPage < 1 →
      (GetPaginationParamsWithDefault (some ⟨0, -5⟩) 1 10).PerPage = 10) ∧
    (∀ p, (some ⟨0, -5⟩ : Option PaginatedParams) = some p → 1 ≤ p.Page →
      1 ≤ p.PerPage →
      GetPaginationParamsWithDefault (some ⟨0, -5⟩) 1 10 = p) :=
  c5_resolver (some ⟨0, -5⟩) 1 10 (by decide) (by decide)

/-- C6: with `total > 0`, the next-page link is empty exactly when the
requested page is at or past the last page; otherwise it is the URL of
page `page + 1`. -/
theorem c6_next_url {I : Type} (req : Request) (q : Query I)
    (params : PaginatedParams) (count : Int) (rows : List I)
    (hc : q.countResult = .ok count) (ha : q.allResult = .ok rows)
    (hcount : 0 < count) :
    ∃ l, (GetPage req q params).1 = .ok l ∧
      (l.NextPageUrl = "" ↔ l.LastPage ≤ params.Page) ∧
      (params.Page < l.LastPage →
        l.NextPageUrl = UrlWithPage req (params.Page + 1) params.PerPage) := by
  rw [getPage_pos req q params count rows hc (by omega) ha]
  refine ⟨_, rfl, ?_⟩
  show ((if params.Page + 1 >
          (if goCeilDiv count params.PerPage ≤ 1 then 1
           else goCeilDiv count params.PerPage) then ""
        else UrlWithPage req (params.Page + 1) params.PerPage) = "" ↔
      (if goCeilDiv count params.PerPage ≤ 1 then 1
       else goCeilDiv count params.PerPage) ≤ params.Page) ∧
    (params.Page <
        (if goCeilDiv count params.PerPage ≤ 1 then 1
         else goCeilDiv count params.PerPage) →
      (if params.Page + 1 >
          (if goCeilDiv count params.PerPage ≤ 1 then 1
           else goCeilDiv count params.PerPage) then ""
       else UrlWithPage req (params.Page + 1) params.PerPage) =
        UrlWithPage req (params.Page + 1) params.PerPage)
  generalize (if goCeilDiv count params.PerPage ≤ 1 then (1 : Int)
      else goCeilDiv count params.PerPage) = L
  constructor
  · constructor
    · intro h
      by_cases hgt : params.Page + 1 > L
      · omega
      · rw [if_neg hgt] at h
        exact absurd h (urlWithPage_ne_empty req (params.Page + 1) params.PerPage)
    · intro hle
      rw [if_pos (by omega)]
  · intro hlt
    rw [if_neg (by omega)]

/-- C6 witness: `total = 25`, `per_page = 10`, `page = 2`: there is a page
3, so the next-page link is non-empty and points at page 3. -/
theorem c6_witness :
    ∃ l, (GetPage reqA (qA (.ok 25) (.ok []))
        { Page := 2, PerPage := 10 }).1 = .ok l ∧
      (l.NextPageUrl = "" ↔ l.LastPage ≤ 2) ∧
      ((2 : Int) < l.LastPage → l.NextPageUrl = UrlWithPage reqA (2 + 1) 10) :=
  c6_next_url reqA (qA (.ok 25) (.ok [])) { Page := 2, PerPage := 10 } 25 []
    rfl rfl (by decide)

/-- C7: with `total > 0`, the previous-page link is empty exactly when the
requested page is ≤ 1; otherwise it is the URL of page `page - 1`. -/
theorem c7_prev_url {I : Type} (req : Request) (q : Query I)
    (params : PaginatedParams) (count : Int) (rows : List I)
    (hc : q.countResult = .ok count) (ha : q.allResult = .ok rows)
    (hcount : 0 < count) :
    ∃ l, (GetPage req q params).1 = .ok l ∧
      (l.PrevPageUrl = "" ↔ params.Page ≤ 1) ∧
      (1 < params.Page →
        l.PrevPageUrl = UrlWithPage req (params.Page - 1) params.PerPage) := by
  rw [getPage_pos req q params count rows hc (by omega) ha]
  refine ⟨_, rfl, ?_⟩
  show ((if params.Page - 1 < 1 then ""
        else UrlWithPage req (params.Page - 1) params.PerPage) = "" ↔
      params.Page ≤ 1) ∧
    (1 < params.Page →
      (if params.Page - 1 < 1 then ""
       else UrlWithPage req (params.Page - 1) params.PerPage) =
        UrlWithPage req (params.Page - 1) params.PerPage)
  constructor
  · constructor
    · intro h
      by_cases hlt : params.Page - 1 < 1
      · omega
      · rw [if_neg hlt] at h
        exact absurd h (urlWithPage_ne_empty req (params.Page - 1) params.PerPage)
    · intro hle
      rw [if_pos (by omega)]
  · intro hgt
    rw [if_neg (by omega)]

/-- C7 witness: `total = 25`, `per_page = 10`, `page = 2`: page 2 has a
predecessor, so the previous-page link is non-empty and points at page 1. -/
theorem c7_witness :
    ∃ l, (GetPage reqA (qA (.ok 25) (.ok []))
        { Page := 2, PerPage := 10 }).1 = .ok l ∧
      (l.PrevPageUrl = "" ↔ (2 : Int) ≤ 1) ∧
      ((1 : Int) < 2 → l.PrevPageUrl = UrlWithPage reqA (2 - 1) 10) :=
  c7_prev_url reqA (qA (.ok 25) (.ok [])) { Page := 2, PerPage := 10 } 25 []
    rfl rfl (by decide)

/-- C8: `GetPage` returns an error exactly when the count fails, or the
count succeeds with a nonzero total and the fetch fails; the error value is
propagated unchanged (and an error return carries no result list); when the
count fails, the fetch is never invoked. -/
theorem c8_error_propagation {I : Type} (req : Request) (q : Query I)
    (params : PaginatedParams) :
    (∀ e, q.countResult = .error e →
      (GetPage req q params).1 = .error e ∧
      ((GetPage req q params).2).allCalls = q.allCalls) ∧
    (∀ count e, q.countResult = .ok count → count ≠ 0 →
      q.allResult = .error e → (GetPage req q params).1 = .error e) ∧
    (∀ e, (GetPage req q params).1 = .error e →
      q.countResult = .error e ∨
      (q.allResult = .error e ∧ ∃ c, q.countResult = .ok c ∧ c ≠ 0)) := by
  refine ⟨?_, ?_, ?_⟩
  · intro e hc
    rw [getPage_countError req q params e hc]
    exact ⟨rfl, rfl⟩
  · intro count e hc hnz ha
    rw [getPage_fetchError req q params count e hc hnz ha]
  · intro e herr
    cases hc : q.countResult with
    | error e' =>
      simp [getPage_countError req q params e' hc] at herr
      subst herr
      exact Or.inl rfl
    | ok count =>
      by_cases hz : count = 0
      · subst hz
        simp [getPage_zero req q params hc] at herr
      · cases ha : q.allResult with
        | error e' =>
          simp [getPage_fetchError req q params count e' hc hz ha] at herr
          subst herr
          exact Or.inr ⟨rfl, count, rfl, hz⟩
        | ok rows =>
          simp [getPage_pos req q params count rows hc hz ha] at herr

/-- C8 witness: a failing count is propagated verbatim and the fetch is
never invoked. -/
theorem c8_witness :
    (GetPage reqA (qA (.error "boom") (.ok []))
        { Page := 1, PerPage := 10 }).1 = .error "boom" ∧
    ((GetPage reqA (qA (.error "boom") (.ok []))
        { Page := 1, PerPage := 10 }).2).allCalls =
      (qA (.error "boom") (.ok [])).allCalls :=
  (c8_error_propagation reqA (qA (.error "boom") (.ok []))
    { Page := 1, PerPage := 10 }).1 "boom" rfl

/-- `mapWithIndex` keeps the length of the list. -/
theorem mapWithIndex_length {I V : Type} (mapper : I → Nat → V) :
    ∀ (xs : List I) (k : Nat), (mapWithIndex mapper xs k).length = xs.length := by
  intro xs
  induction xs with
  | nil => intro k; rfl
  | cons a as ih =>
    intro k
    simp [mapWithIndex, ih]

/-- `mapWithIndex` applies the mapper pointwise, with the running index. -/
theorem mapWithIndex_getElem {I V : Type} (mapper : I → Nat → V) :
    ∀ (xs : List I) (k i : Nat),
      (mapWithIndex mapper xs k)[i]? =
        (xs[i]?).map fun row => mapper row (k + i) := by
  intro xs
  induction xs with
  | nil =>
    intro k i
    simp [mapWithIndex]
  | cons a as ih =>
    intro k i
    cases i with
    | zero => simp [mapWithIndex]
    | succ j =>
      have harith : k + 1 + j = k + (j + 1) := by omega
      simp only [mapWithIndex, List.getElem?_cons_succ]
      rw [ih (k + 1) j, harith]

/-- C9: whenever `GetPage` succeeds, `GetPageMapped` succeeds with the same
value in every field except `Data`, whose entries are the original entries
transformed by `mapper(row, index)`, in order and of the same length. -/
theorem c9_mapped {I V : Type} (req : Request) (q : Query I)
    (params : PaginatedParams) (mapper : I → Nat → V) (l : PaginatedList I)
    (h : (GetPage req q params).1 = .ok l) :
    ∃ m, (GetPageMapped req q params mapper).1 = .ok m ∧
      m.Total = l.Total ∧ m.PerPage = l.PerPage ∧
      m.CurrentPage = l.CurrentPage ∧ m.LastPage = l.LastPage ∧
      m.FirstPageUrl = l.FirstPageUrl ∧ m.LastPageUrl = l.LastPageUrl ∧
      m.NextPageUrl = l.NextPageUrl ∧ m.PrevPageUrl = l.PrevPageUrl ∧
      m.Path = l.Path ∧ m.From = l.From ∧ m.To = l.To ∧
      m.Data.length = l.Data.length ∧
      (∀ i : Nat, m.Data[i]? = (l.Data[i]?).map fun row => mapper row i) := by
  refine ⟨{ Total := l.Total, PerPage := l.PerPage,
            CurrentPage := l.CurrentPage, LastPage := l.LastPage,
            FirstPageUrl := l.FirstPageUrl, LastPageUrl := l.LastPageUrl,
            NextPageUrl := l.NextPageUrl, PrevPageUrl := l.PrevPageUrl,
            Path := l.Path, From := l.From, To := l.To,
            Data := mapWithIndex mapper l.Data 0 }, ?_, rfl, rfl, rfl, rfl,
          rfl, rfl, rfl, rfl, rfl, rfl, rfl, ?_, ?_⟩
  · simp [GetPageMapped, h]
  · exact mapWithIndex_length mapper l.Data 0
  · intro i
    show (mapWithIndex mapper l.Data 0)[i]? =
      (l.Data[i]?).map fun row => mapper row i
    rw [mapWithIndex_getElem mapper l.Data 0 i]
    simp

/-- A concrete mapper for the C9 witness. -/
def mapperA : Int → Nat → Int := fun row i => row * 100 + (i : Int)

/-- The concrete result `GetPage` produces for `total = 2`, rows
`[10, 20]`, `page = 1`, `per_page = 10` against `reqA`. -/
def listA : PaginatedList Int :=
  { Total := 2, PerPage := 10, CurrentPage := 1, LastPage := 1,
    FirstPageUrl := "http://example.com/items?page=1&per_page=10",
    LastPageUrl := "", NextPageUrl := "", PrevPageUrl := "",
    Path := "http://example.com/items", From := 1, To := 2, Data := [10, 20] }

/-- C9 witness: mapping `[10, 20]` through `mapperA` preserves every
metadata field and transforms the data pointwise with its index. -/
theorem c9_witness :
    ∃ m, (GetPageMapped reqA (qA (.ok 2) (.ok [10, 20]))
        { Page := 1, PerPage := 10 } mapperA).1 = .ok m ∧
      m.Total = listA.Total ∧ m.PerPage = listA.PerPage ∧
      m.CurrentPage = listA.CurrentPage ∧ m.LastPage = listA.LastPage ∧
      m.FirstPageUrl = listA.FirstPageUrl ∧ m.LastPageUrl = listA.LastPageUrl ∧
      m.NextPageUrl = listA.NextPageUrl ∧ m.PrevPageUrl = listA.PrevPageUrl ∧
      m.Path = listA.Path ∧ m.From = listA.From ∧ m.To = listA.To ∧
      m.Data.length = listA.Data.length ∧
      (∀ i : Nat, m.Data[i]? = (listA.Data[i]?).map fun row => mapperA row i) :=
  c9_mapped reqA (qA (.ok 2) (.ok [10, 20])) { Page := 1, PerPage := 10 }
    mapperA listA rfl

/-- C10: the last-page computation divides by `params.PerPage` with no
guard. Under `per_page ≥ 1` the guarded embedding never takes its
division-by-zero branch and agrees with the unguarded `goCeilDiv`; a call
with `per_page = 0` and a positive count still reaches the division
(`GetPage` returns normally, its `LastPage` built from `goCeilDiv count 0`),
which the guarded embedding flags as `none`. -/
theorem c10_division_guard (count pp : Int) :
    (1 ≤ pp → lastPageChecked count pp = some (goCeilDiv count pp)) ∧
    (pp = 0 → lastPageChecked count pp = none) ∧
    (∀ (req : Request) (q : Query Int) (params : PaginatedParams)
        (rows : List Int),
      q.countResult = .ok count → q.allResult = .ok rows → count ≠ 0 →
      params.PerPage = pp →
      ∃ l, (GetPage req q params).1 = .ok l ∧
        l.LastPage = max 1 (goCeilDiv count pp)) := by
  refine ⟨?_, ?_, ?_⟩
  · intro h
    rw [lastPageChecked, if_neg (by omega)]
  · intro h
    rw [lastPageChecked, if_pos h]
  · intro req q params rows hc ha hnz hpp
    rw [getPage_pos req q params count rows hc hnz ha]
    refine ⟨_, rfl, ?_⟩
    show (if goCeilDiv count params.PerPage ≤ 1 then (1 : Int)
        else goCeilDiv count params.PerPage) = max 1 (goCeilDiv count pp)
    rw [hpp]
    split <;> omega

/-- C10 witness: at `count = 5`, the guarded division is `none` for
`per_page = 0` — a configuration `GetPage` happily computes through
(producing `LastPage = 1` from `goCeilDiv 5 0 = 0`) — and is `some` for
`per_page = 10`. -/
theorem c10_witness :
    lastPageChecked 5 0 = none ∧
    (∃ l, (GetPage reqA (qA (.ok 5) (.ok []))
        { Page := 1, PerPage := 0 }).1 = .ok l ∧
      l.LastPage = max 1 (goCeilDiv 5 0)) ∧
    lastPageChecked 5 10 = some (goCeilDiv 5 10) :=
  ⟨(c10_division_guard 5 0).2.1 rfl,
   (c10_division_guard 5 0).2.2 reqA (qA (.ok 5) (.ok []))
     { Page := 1, PerPage := 0 } [] rfl rfl (by decide) rfl,
   (c10_division_guard 5 10).1 (by decide)⟩

end Paginate
